import Mathlib

/-!
A shallow embedding of the cloud-provider-metal identity-resolution,
instance-metadata and reconciliation logic, with proofs of the specified
properties.  Go strings are modelled as lists of characters (`GoStr`);
the Kubernetes object stores are modelled as finite lists of objects and
every patch issued against a store is recorded as an explicit event.
-/

namespace CPMetal

abbrev GoStr := List Char

/-- Go `strings.Split` restricted to a one-character separator (the code
only ever splits on the single character slash). -/
def goSplitChar (sep : Char) : GoStr → List GoStr
  | [] => [[]]
  | c :: rest =>
    match goSplitChar sep rest with
    | [] => [[c]]
    | g :: gs => if c = sep then [] :: g :: gs else (c :: g) :: gs

/-- Go `strings.TrimPrefix`: drop `pre` from the front of `s` when it is
there, otherwise return `s` unchanged. -/
def trimPref (pre s : GoStr) : GoStr :=
  if pre.isPrefixOf s then s.drop pre.length else s

/-- Go `strings.Cut`: split `s` around the first occurrence of `sep`;
`none` models the `ok = false` return. -/
def goCut (s sep : GoStr) : Option (GoStr × GoStr) :=
  if sep.isPrefixOf s then some ([], s.drop sep.length)
  else
    match s with
    | [] => none
    | c :: rest => (goCut rest sep).map (fun p => (c :: p.1, p.2))

/-- Go `strings.ToLower` (ASCII fragment, which is what hardware UUIDs use). -/
def goToLower (s : GoStr) : GoStr := s.map Char.toLower

/-- `ProviderName` from `cloud.go`. -/
def ProviderName : GoStr := "metal".data

/-- The `"://"` scheme separator. -/
def schemeSep : GoStr := "://".data

/-- `fmt.Sprintf("%s://", ProviderName)` as used by `getObjectKeyFromProviderID`. -/
def metalSchemePref : GoStr := ProviderName ++ schemeSep

structure ObjectKey where
  nspace : GoStr
  name : GoStr
deriving DecidableEq

inductive GoErr
  | invalidProviderIDFormat
  | emptyProviderID
  | missingScheme
  | badSegmentCount
deriving DecidableEq

/-- `getObjectKeyFromProviderID` from `instances_v2.go`: trim a leading
`metal://`, split the remainder on `/`, demand exactly two parts. -/
def getObjectKeyFromProviderID (providerID : GoStr) : Except GoErr ObjectKey :=
  match goSplitChar '/' (trimPref metalSchemePref providerID) with
  | [ns, n] => .ok ⟨ns, n⟩
  | _ => .error .invalidProviderIDFormat

/-- `parseProviderID` from the node reconciler: require a non-empty
scheme before `://` and exactly two `/`-separated segments after it. -/
def parseProviderID (providerID : GoStr) : Except GoErr ObjectKey :=
  if providerID = [] then .error .emptyProviderID
  else
    match goCut providerID schemeSep with
    | none => .error .missingScheme
    | some (provider, rest) =>
      if provider = [] then .error .missingScheme
      else
        match goSplitChar '/' rest with
        | [ns, n] => .ok ⟨ns, n⟩
        | _ => .error .badSegmentCount

/-- The provider-identifier synthesis
`fmt.Sprintf("%s://%s/%s", ProviderName, namespace, name)` used by
`InstanceMetadata` and by the claim reconciler. -/
def encodeProviderID (ns name : GoStr) : GoStr :=
  ProviderName ++ schemeSep ++ ns ++ '/' :: name

/- ### Lemmas about the string operations -/

lemma goSplitChar_ne_nil (sep : Char) (s : GoStr) : goSplitChar sep s ≠ [] := by
  cases s with
  | nil => simp [goSplitChar]
  | cons c rest =>
    simp only [goSplitChar]
    cases goSplitChar sep rest with
    | nil => simp
    | cons g gs =>
      by_cases h : c = sep <;> simp [h]

lemma goSplitChar_of_not_mem (sep : Char) (s : GoStr) (h : sep ∉ s) :
    goSplitChar sep s = [s] := by
  induction s with
  | nil => rfl
  | cons c rest ih =>
    have hc : c ≠ sep := fun hcs => h (hcs ▸ List.mem_cons_self c rest)
    have hrest : sep ∉ rest := fun hr => h (List.mem_cons_of_mem c hr)
    simp [goSplitChar, ih hrest, hc]

lemma goSplitChar_append_sep (sep : Char) (a b : GoStr)
    (ha : sep ∉ a) (hb : sep ∉ b) :
    goSplitChar sep (a ++ sep :: b) = [a, b] := by
  induction a with
  | nil => simp [goSplitChar, goSplitChar_of_not_mem sep b hb]
  | cons c a' ih =>
    have hc : c ≠ sep := fun hcs => ha (hcs ▸ List.mem_cons_self c a')
    have ha' : sep ∉ a' := fun hr => ha (List.mem_cons_of_mem c hr)
    simp [goSplitChar, ih ha', hc]

lemma goSplitChar_length (sep : Char) (s : GoStr) :
    (goSplitChar sep s).length = s.count sep + 1 := by
  induction s with
  | nil => rfl
  | cons c rest ih =>
    rcases hrest : goSplitChar sep rest with _ | ⟨g, gs⟩
    · exact absurd hrest (goSplitChar_ne_nil sep rest)
    · have hlen : gs.length + 1 = rest.count sep + 1 := by
        rw [hrest] at ih
        simpa using ih
      by_cases hc : c = sep
      · subst hc
        simp only [goSplitChar, hrest]
        rw [if_pos trivial, List.count_cons_self]
        simp only [List.length_cons]
        omega
      · simp only [goSplitChar, hrest]
        rw [if_neg hc, List.count_cons_of_ne (Ne.symm hc)]
        simp only [List.length_cons]
        omega

lemma isPrefixOf_append_self (pre rest : GoStr) :
    pre.isPrefixOf (pre ++ rest) = true := by
  induction pre with
  | nil => simp [List.isPrefixOf]
  | cons c cs ih => simp [List.isPrefixOf, ih]

lemma trimPref_append (pre rest : GoStr) : trimPref pre (pre ++ rest) = rest := by
  simp [trimPref, isPrefixOf_append_self, List.drop_left]

lemma goCut_append (a b : GoStr) (s0 : Char) (srest : GoStr)
    (ha : ∀ c ∈ a, c ≠ s0) :
    goCut (a ++ s0 :: (srest ++ b)) (s0 :: srest) = some (a, b) := by
  induction a with
  | nil =>
    have hpre : (s0 :: srest).isPrefixOf (s0 :: (srest ++ b)) = true :=
      isPrefixOf_append_self (s0 :: srest) b
    simp only [List.nil_append, goCut]
    rw [if_pos hpre]
    simp only [List.length_cons]
    rw [show (s0 :: (srest ++ b)).drop (srest.length + 1)
          = (srest ++ b).drop srest.length from rfl, List.drop_left]
  | cons c a' ih =>
    have hc : c ≠ s0 := ha c (List.mem_cons_self c a')
    have ih' := ih (fun x hx => ha x (List.mem_cons_of_mem c hx))
    have hnp : ¬((s0 :: srest).isPrefixOf (c :: (a' ++ s0 :: (srest ++ b))) = true) := by
      simp [List.isPrefixOf, Ne.symm hc]
    simp only [List.cons_append, goCut]
    rw [if_neg hnp]
    simp only [List.append_eq]
    rw [ih']
    rfl

/- ### C1: provider-identifier round-trip -/

/-- Example namespace used in witnesses. -/
def wNs : GoStr := "default".data

/-- Example claim name used in witnesses. -/
def wName : GoStr := "claim-1".data

/-- C1: for every valid (namespace, name) pair — Kubernetes names never
contain a slash — decoding the provider identifier encoded as
`metal://<namespace>/<name>` returns exactly the original pair. -/
theorem providerID_roundtrip (ns name : GoStr)
    (hns : '/' ∉ ns) (hname : '/' ∉ name) :
    getObjectKeyFromProviderID (encodeProviderID ns name) = .ok ⟨ns, name⟩ := by
  have henc : encodeProviderID ns name = metalSchemePref ++ (ns ++ '/' :: name) := by
    simp [encodeProviderID, metalSchemePref, List.append_assoc]
  rw [getObjectKeyFromProviderID, henc, trimPref_append,
    goSplitChar_append_sep '/' ns name hns hname]

/-- C1 witness: the round-trip theorem applied at a concrete pair. -/
theorem providerID_roundtrip_witness :
    '/' ∉ wNs ∧ '/' ∉ wName ∧
    getObjectKeyFromProviderID (encodeProviderID wNs wName) = .ok ⟨wNs, wName⟩ :=
  ⟨by decide, by decide, providerID_roundtrip wNs wName (by decide) (by decide)⟩

/- ### C2: decode validation behaviour -/

/-- A provider identifier with no scheme separator at all. -/
def pidNoScheme : GoStr := "default/claim-1".data

/-- A provider identifier with a foreign scheme. -/
def pidWrongScheme : GoStr := "aws://default/claim-1".data

/-- The foreign scheme on its own. -/
def awsScheme : GoStr := "aws".data

/-- C2 counterexample: `default/claim-1` carries no scheme separator, yet
`getObjectKeyFromProviderID` decodes it successfully; and
`aws://default/claim-1` carries a scheme that is not the provider's own,
yet `parseProviderID` decodes it successfully.  Both refute the claim
that a missing separator or a scheme mismatch is always a decode error. -/
theorem providerID_decode_counterexample :
    schemeSep.head? = some ':' ∧ pidNoScheme.count ':' = 0 ∧
    getObjectKeyFromProviderID pidNoScheme = .ok ⟨wNs, wName⟩ ∧
    parseProviderID pidWrongScheme = .ok ⟨wNs, wName⟩ := by
  refine ⟨rfl, by decide, ?_, ?_⟩ <;> rfl

/-- C2 (amended): `getObjectKeyFromProviderID` strips one leading
`metal://` when present and succeeds exactly when the remainder contains
exactly one slash — the scheme and its separator are not otherwise
validated, so a separator-free two-segment string also decodes; and
`parseProviderID` demands some non-empty scheme before `://` and exactly
two segments after it, but accepts any scheme, not only the provider's
own. -/
theorem providerID_decode_amended :
    (∀ pid : GoStr,
      (∃ k, getObjectKeyFromProviderID pid = .ok k) ↔
        (trimPref metalSchemePref pid).count '/' = 1)
    ∧ (∀ scheme ns name : GoStr, scheme ≠ [] → ':' ∉ scheme →
        '/' ∉ ns → '/' ∉ name →
        parseProviderID (scheme ++ schemeSep ++ (ns ++ '/' :: name)) = .ok ⟨ns, name⟩) := by
  constructor
  · intro pid
    constructor
    · rintro ⟨k, hk⟩
      rw [getObjectKeyFromProviderID] at hk
      have hlen := goSplitChar_length '/' (trimPref metalSchemePref pid)
      rcases hls : goSplitChar '/' (trimPref metalSchemePref pid) with _ | ⟨a, _ | ⟨b, _ | ⟨c, r⟩⟩⟩ <;>
        rw [hls] at hk hlen <;> simp_all
    · intro hcount
      have hlen : (goSplitChar '/' (trimPref metalSchemePref pid)).length = 2 := by
        rw [goSplitChar_length, hcount]
      rcases hls : goSplitChar '/' (trimPref metalSchemePref pid) with _ | ⟨a, _ | ⟨b, _ | ⟨c, r⟩⟩⟩ <;>
        rw [hls] at hlen <;> simp_all
      exact ⟨⟨a, b⟩, by rw [getObjectKeyFromProviderID, hls]⟩
  · intro scheme ns name hne hcolon hns hname
    have hnotempty : scheme ++ schemeSep ++ (ns ++ '/' :: name) ≠ [] := by
      intro h
      rcases List.append_eq_nil.mp h with ⟨h1, -⟩
      rcases List.append_eq_nil.mp h1 with ⟨h2, -⟩
      exact hne h2
    have hcut : goCut (scheme ++ schemeSep ++ (ns ++ '/' :: name)) schemeSep
        = some (scheme, ns ++ '/' :: name) := by
      have : scheme ++ schemeSep ++ (ns ++ '/' :: name)
          = scheme ++ ':' :: (['/', '/'] ++ (ns ++ '/' :: name)) := by
        rw [List.append_assoc]; rfl
      rw [this]
      exact goCut_append scheme (ns ++ '/' :: name) ':' ['/', '/']
        (fun c hc hceq => hcolon (hceq ▸ hc))
    rw [parseProviderID, if_neg hnotempty, hcut]
    simp only
    rw [if_neg hne, goSplitChar_append_sep '/' ns name hns hname]

/-- C2 (amended) witness: the amended theorem applied at concrete inputs. -/
theorem providerID_decode_amended_witness :
    (∃ k, getObjectKeyFromProviderID pidNoScheme = .ok k) ∧
    parseProviderID (awsScheme ++ schemeSep ++ (wNs ++ '/' :: wName)) = .ok ⟨wNs, wName⟩ :=
  ⟨(providerID_decode_amended.1 pidNoScheme).mpr (by decide),
   providerID_decode_amended.2 awsScheme wNs wName
     (by decide) (by decide) (by decide) (by decide)⟩

/- ### Data model: claims, servers, nodes, IPAM objects, stores -/

/-- Association-list model of a Go `map[string]string` (labels,
annotations). -/
abbrev StrMap := List (GoStr × GoStr)

/-- Go map read returning the optional value. -/
def lookupStr (l : StrMap) (k : GoStr) : Option GoStr :=
  (l.find? (fun p => p.1 == k)).map (·.2)

/-- Go map read: missing keys yield the empty string. -/
def mapGet (l : StrMap) (k : GoStr) : GoStr := (lookupStr l k).getD []

/-- Go `_, ok := m[k]` presence check. -/
def mapHas (l : StrMap) (k : GoStr) : Bool := (lookupStr l k).isSome

/-- Go map write `m[k] = v`. -/
def mapSet (l : StrMap) (k v : GoStr) : StrMap :=
  match l with
  | [] => [(k, v)]
  | p :: rest => if p.1 == k then (k, v) :: rest else p :: mapSet rest k v

/-- Go `delete(m, k)`. -/
def mapDel (l : StrMap) (k : GoStr) : StrMap :=
  l.filter (fun p => !(p.1 == k))

/-- `metalv1alpha1.ServerClaim`: namespace/name identity, labels, the
optional `Spec.ServerRef.Name` and the desired `Spec.Power`. -/
structure ServerClaim where
  nspace : GoStr
  name : GoStr
  labels : StrMap
  serverRef : Option GoStr
  power : GoStr
deriving DecidableEq

/-- `metalv1alpha1.Server`: name, `Spec.UUID`, labels, reported
`Status.PowerState` and the reported network-interface IPs. -/
structure Server where
  name : GoStr
  uuid : GoStr
  labels : StrMap
  powerState : GoStr
  nicIPs : List GoStr
deriving DecidableEq

/-- `corev1.Node`: name, `Spec.ProviderID` (empty string when unset),
labels, annotations and `Status.NodeInfo.SystemUUID`. -/
structure Node where
  name : GoStr
  providerID : GoStr
  labels : StrMap
  annotations : StrMap
  systemUUID : GoStr
deriving DecidableEq

/-- `capiv1beta1.IPAddressClaim`: namespace/name, labels and the
`Status.AddressRef.Name` (empty string when unresolved). -/
structure IPAddressClaim where
  nspace : GoStr
  name : GoStr
  labels : StrMap
  addressRefName : GoStr
deriving DecidableEq

/-- `capiv1beta1.IPAddress`: namespace/name and `Spec.Address`. -/
structure IPAddress where
  nspace : GoStr
  name : GoStr
  address : GoStr
deriving DecidableEq

/-- The metal cluster's store of objects, as seen through the client. -/
structure MetalStore where
  claims : List ServerClaim
  servers : List Server
  ipClaims : List IPAddressClaim
  ipAddrs : List IPAddress
deriving DecidableEq

def MetalStore.getClaim (st : MetalStore) (k : ObjectKey) : Option ServerClaim :=
  st.claims.find? (fun c => c.nspace == k.nspace && c.name == k.name)

def MetalStore.getServer (st : MetalStore) (n : GoStr) : Option Server :=
  st.servers.find? (fun s => s.name == n)

def MetalStore.claimsInNamespace (st : MetalStore) (ns : GoStr) : List ServerClaim :=
  st.claims.filter (fun c => c.nspace == ns)

def MetalStore.getIPAddr (st : MetalStore) (name ns : GoStr) : Option IPAddress :=
  st.ipAddrs.find? (fun a => a.name == name && a.nspace == ns)

/-- Applying a (merge) patch of a claim: replace the object with the
same identity by its patched version. -/
def MetalStore.putClaim (st : MetalStore) (c : ServerClaim) : MetalStore :=
  { st with
    claims := st.claims.map
      (fun c0 => if c0.nspace == c.nspace && c0.name == c.name then c else c0) }

instance {ε α : Type} [DecidableEq ε] [DecidableEq α] :
    DecidableEq (Except ε α) := fun x y =>
  match x, y with
  | .error a, .error b =>
    if h : a = b then .isTrue (h ▸ rfl)
    else .isFalse (fun he => h (Except.error.inj he))
  | .error _, .ok _ => .isFalse (fun h => Except.noConfusion h)
  | .ok _, .error _ => .isFalse (fun h => Except.noConfusion h)
  | .ok a, .ok b =>
    if h : a = b then .isTrue (h ▸ rfl)
    else .isFalse (fun he => h (Except.ok.inj he))

/- ### Configuration and constants -/

structure IPAMKind where
  apiGroup : GoStr
  kind : GoStr
deriving DecidableEq

structure Networking where
  configureNodeAddresses : Bool
  ipamKind : Option IPAMKind
deriving DecidableEq

structure CloudConfig where
  clusterName : GoStr
  networking : Networking
deriving DecidableEq

/-- The fields of `metalInstancesV2` that the query surface reads. -/
structure Provider where
  metalNamespace : GoStr
  cloudConfig : CloudConfig
deriving DecidableEq

def LabelKeyClusterName : GoStr := "kubernetes.io/cluster".data
def LabelKeyServerClaimName : GoStr := "metal.ironcore.dev/server-claim-name".data
def LabelKeyServerClaimNamespace : GoStr := "metal.ironcore.dev/server-claim-namespace".data
def AnnotationPowerOff : GoStr := "metal.ironcore.dev/power-off".data
def PowerOff : GoStr := "Off".data
def PowerOn : GoStr := "On".data
def ServerOffPowerState : GoStr := "Off".data
def ServerMaintenanceNeededLabelKey : GoStr := "metal.ironcore.dev/maintenance-needed".data
def ServerMaintenanceApprovalKey : GoStr := "metal.ironcore.dev/maintenance-approval".data
def TrueStr : GoStr := "true".data
def InstanceTypeLabelKey : GoStr := "metal.ironcore.dev/instance-type".data
def LabelTopologyZone : GoStr := "topology.kubernetes.io/zone".data
def LabelTopologyRegion : GoStr := "topology.kubernetes.io/region".data
def capiGroup : GoStr := "ipam.cluster.x-k8s.io".data
def kindIPAddress : GoStr := "IPAddress".data
def NodeInternalIP : GoStr := "InternalIP".data

/- ### Errors -/

/-- Error taxonomy of the query surface: the `cloudprovider.InstanceNotFound`
sentinel is distinguishable by identity from every wrapped error. -/
inductive CloudErr
  | instanceNotFound
  | other (msg : GoStr)
deriving DecidableEq

def errObjectKeyMsg : GoStr := "failed to get object key for ProviderID".data
def errGetServerMsg : GoStr := "failed to get server object".data
def errGetIPMsg : GoStr := "failed to get ip address object".data
def errIPAMKindMsg : GoStr := "unknown ipamKind used for node ip address assignment".data
def errMultipleNodesMsg : GoStr := "multiple nodes found with providerID".data

/- ### Identity resolution -/

/-- `getServerClaimFromProviderID`: decode the provider identifier
(wrapping a decode failure into a generic error), then fetch the claim;
a missing claim is the `InstanceNotFound` sentinel. -/
def getServerClaimFromProviderID (st : MetalStore) (providerID : GoStr) :
    Except CloudErr ServerClaim :=
  match getObjectKeyFromProviderID providerID with
  | .error _ => .error (.other errObjectKeyMsg)
  | .ok k =>
    match st.getClaim k with
    | none => .error .instanceNotFound
    | some c => .ok c

/-- The discovery loop of `getServerClaimForNode`: walk the listed claims,
skip claims without a server reference, fetch each referenced server
(a missing server is a generic wrapped error), and return the first claim
whose server UUID — lower-cased — equals the node's reported system UUID. -/
def scanClaimsForUUID (st : MetalStore) (uuid : GoStr) :
    List ServerClaim → Except CloudErr (Option ServerClaim)
  | [] => .ok none
  | c :: rest =>
    match c.serverRef with
    | none => scanClaimsForUUID st uuid rest
    | some ref =>
      match st.getServer ref with
      | none => .error (.other errGetServerMsg)
      | some s =>
        if uuid = goToLower s.uuid then .ok (some c)
        else scanClaimsForUUID st uuid rest

/-- `getServerClaimForNode`: by provider identifier when the node has one,
otherwise first-contact discovery over the configured namespace. -/
def getServerClaimForNode (p : Provider) (st : MetalStore) (n : Node) :
    Except CloudErr (Option ServerClaim) :=
  if n.providerID ≠ [] then
    match getServerClaimFromProviderID st n.providerID with
    | .error e => .error e
    | .ok c => .ok (some c)
  else
    scanClaimsForUUID st n.systemUUID (st.claimsInNamespace p.metalNamespace)

/- ### The instance query surface -/

/-- `InstanceExists`. -/
def InstanceExists (p : Provider) (st : MetalStore) (node : Option Node) :
    Except CloudErr Bool :=
  match node with
  | none => .ok false
  | some n =>
    match getServerClaimForNode p st n with
    | .error e => .error e
    | .ok none => .error .instanceNotFound
    | .ok (some _) => .ok true

/-- `InstanceShutdown`: resolve the claim, fetch its server (absence is
the `InstanceNotFound` sentinel here) and report whether its power state
is Off. -/
def InstanceShutdown (p : Provider) (st : MetalStore) (node : Option Node) :
    Except CloudErr Bool :=
  match node with
  | none => .ok false
  | some n =>
    match getServerClaimForNode p st n with
    | .error e => .error e
    | .ok none => .error .instanceNotFound
    | .ok (some c) =>
      match st.getServer (c.serverRef.getD []) with
      | none => .error .instanceNotFound
      | some s => .ok (s.powerState == ServerOffPowerState)

/-- Every patch issued against either store, tagged by call site. -/
inductive PatchEvent
  | claimClusterLabelPatch (before after : ServerClaim)
  | claimPowerPatch (before after : ServerClaim)
  | claimApprovalPatch (before after : ServerClaim)
  | nodeMaintenancePatch (before after : Node)
deriving DecidableEq

/-- `setServerClaimPower`: power the claim off when the node carries the
power-off annotation, back on when it does not; each adjustment is one
patch. -/
def setServerClaimPower (n : Node) (c : ServerClaim) :
    ServerClaim × List PatchEvent :=
  let powerOff := mapHas n.annotations AnnotationPowerOff
  let step1 :=
    if powerOff && !(c.power == PowerOff) then
      ({ c with power := PowerOff },
       [PatchEvent.claimPowerPatch c { c with power := PowerOff }])
    else (c, [])
  let c1 := step1.1
  let step2 :=
    if !powerOff && (c1.power == PowerOff) then
      ({ c1 with power := PowerOn },
       [PatchEvent.claimPowerPatch c1 { c1 with power := PowerOn }])
    else (c1, [])
  (step2.1, step1.2 ++ step2.2)

structure NodeAddress where
  addrType : GoStr
  address : GoStr
deriving DecidableEq

/-- The cluster-api branch of `getNodeAddresses`: for each selected
address claim, skip it while unresolved, otherwise fetch the address
object (a missing one is a wrapped error) and collect its address. -/
def collectIPAddrs (st : MetalStore) :
    List IPAddressClaim → Except CloudErr (List NodeAddress)
  | [] => .ok []
  | ic :: rest =>
    if ic.addressRefName == [] then collectIPAddrs st rest
    else
      match st.getIPAddr ic.addressRefName ic.nspace with
      | none => .error (.other errGetIPMsg)
      | some ipa =>
        (collectIPAddrs st rest).map
          (fun l => ⟨NodeInternalIP, ipa.address⟩ :: l)

/-- `getNodeAddresses`: disabled addressing yields the empty list; no
IPAM backend yields one internal address per reported interface; the
cluster-api `IPAddress` backend collects label-selected address claims;
anything else is a configuration error. -/
def getNodeAddresses (p : Provider) (st : MetalStore)
    (server : Server) (claim : ServerClaim) : Except CloudErr (List NodeAddress) :=
  if !p.cloudConfig.networking.configureNodeAddresses then .ok []
  else
    match p.cloudConfig.networking.ipamKind with
    | none => .ok (server.nicIPs.map (fun ip => ⟨NodeInternalIP, ip⟩))
    | some k =>
      if k.apiGroup == capiGroup && k.kind == kindIPAddress then
        collectIPAddrs st
          (st.ipClaims.filter (fun ic =>
            ic.nspace == p.metalNamespace &&
            lookupStr ic.labels LabelKeyServerClaimName == some claim.name &&
            lookupStr ic.labels LabelKeyServerClaimNamespace == some claim.nspace))
      else .error (.other errIPAMKindMsg)

/-- The record assembled by `InstanceMetadata`. -/
structure InstanceMetadataOut where
  providerID : GoStr
  instanceType : GoStr
  zone : GoStr
  region : GoStr
  additionalLabels : StrMap
  nodeAddresses : List NodeAddress
deriving DecidableEq

/-- Result of one `InstanceMetadata` call: the returned value or error,
the store after the patches that were issued, and those patches. -/
structure MetaResult where
  result : Except CloudErr (Option InstanceMetadataOut)
  store : MetalStore
  events : List PatchEvent
deriving DecidableEq

/-- `InstanceMetadata`: resolve the claim, stamp the cluster-name label
(one unconditional patch), converge the desired power state, fetch the
server and assemble the metadata record. -/
def InstanceMetadata (p : Provider) (st : MetalStore) (node : Option Node) :
    MetaResult :=
  match node with
  | none => ⟨.ok none, st, []⟩
  | some n =>
    match getServerClaimForNode p st n with
    | .error e => ⟨.error e, st, []⟩
    | .ok none => ⟨.error .instanceNotFound, st, []⟩
    | .ok (some claim) =>
      let claim1 := { claim with
        labels := mapSet claim.labels LabelKeyClusterName p.cloudConfig.clusterName }
      let st1 := st.putClaim claim1
      let ev1 := PatchEvent.claimClusterLabelPatch claim claim1
      let powerStep := setServerClaimPower n claim1
      let claim2 := powerStep.1
      let st2 := st1.putClaim claim2
      let evs := ev1 :: powerStep.2
      match st2.getServer (claim2.serverRef.getD []) with
      | none => ⟨.error (.other errGetServerMsg), st2, evs⟩
      | some server =>
        let pid :=
          if n.providerID ≠ [] then n.providerID
          else encodeProviderID p.metalNamespace claim2.name
        match getNodeAddresses p st2 server claim2 with
        | .error e => ⟨.error e, st2, evs⟩
        | .ok addrs =>
          ⟨.ok (some
            { providerID := pid
              instanceType := mapGet server.labels InstanceTypeLabelKey
              zone := mapGet server.labels LabelTopologyZone
              region := mapGet server.labels LabelTopologyRegion
              additionalLabels := server.labels
              nodeAddresses := addrs }), st2, evs⟩

/- ### The two reconcilers -/

/-- The label logic of `NodeReconciler.Reconcile` applied to a fetched
node and its resolved claim: set the approval label on the claim when
both the claim's maintenance-needed label and the node's approval label
are `true`, delete it otherwise; patch only on difference. -/
def nodeReconcileClaim (node : Node) (claim : ServerClaim) :
    ServerClaim × List PatchEvent :=
  let maintenanceVal := mapGet claim.labels ServerMaintenanceNeededLabelKey
  let approvalVal := mapGet node.labels ServerMaintenanceApprovalKey
  let newLabels :=
    if maintenanceVal = TrueStr ∧ approvalVal = TrueStr then
      mapSet claim.labels ServerMaintenanceApprovalKey TrueStr
    else
      mapDel claim.labels ServerMaintenanceApprovalKey
  let newClaim := { claim with labels := newLabels }
  if newClaim = claim then (claim, [])
  else (newClaim, [PatchEvent.claimApprovalPatch claim newClaim])

/-- Result of one `ServerClaimReconciler.Reconcile` pass. -/
structure ClaimReconcileOut where
  result : Except CloudErr Unit
  events : List PatchEvent
deriving DecidableEq

/-- `ServerClaimReconciler.Reconcile` for a fetched claim: reverse-lookup
the nodes carrying the claim's provider identifier; zero matches is a
no-op, more than one is a hard error, exactly one gets the
maintenance-needed label mirrored onto it. -/
def serverClaimReconcile (claim : ServerClaim) (nodes : List Node) :
    ClaimReconcileOut :=
  let pid := encodeProviderID claim.nspace claim.name
  match nodes.filter (fun n => n.providerID == pid) with
  | [] => ⟨.ok (), []⟩
  | [node] =>
    let maintenanceVal := mapGet claim.labels ServerMaintenanceNeededLabelKey
    let newLabels :=
      if maintenanceVal = TrueStr then
        mapSet node.labels ServerMaintenanceNeededLabelKey TrueStr
      else
        mapDel node.labels ServerMaintenanceNeededLabelKey
    let newNode := { node with labels := newLabels }
    ⟨.ok (), [PatchEvent.nodeMaintenancePatch node newNode]⟩
  | _ => ⟨.error (.other errMultipleNodesMsg), []⟩

/- ### Pod-address-block host-bit zeroing -/

/-- Keep the top `k` bits of the byte `b` (with `k` clamped to 8). -/
def keepTopBits (k b : Nat) : Nat := b / 2 ^ (8 - k) * 2 ^ (8 - k)

/-- Modelled from the spec: the implementation of `zeroHostBits` is not
part of the sources (only its test table is); per the specification it
keeps the first prefix-length bits of the address — given as its list of
bytes, 4 for IPv4 or 16 for IPv6 — and clears the remaining host bits. -/
def zeroHostBits (ip : List Nat) (maskSize : Nat) : List Nat :=
  ip.enum.map (fun p => keepTopBits (min 8 (maskSize - 8 * p.1)) p.2)

/- ### Lemmas about the map model -/

lemma lookupStr_cons (p : GoStr × GoStr) (l : StrMap) (k : GoStr) :
    lookupStr (p :: l) k = if p.1 == k then some p.2 else lookupStr l k := by
  by_cases h : p.1 == k <;> simp [lookupStr, List.find?, h]

lemma lookup_mapSet (l : StrMap) (k v : GoStr) :
    lookupStr (mapSet l k v) k = some v := by
  induction l with
  | nil => simp [mapSet, lookupStr_cons]
  | cons p rest ih =>
    by_cases h : p.1 == k <;> simp [mapSet, h, lookupStr_cons, ih]

lemma lookup_mapDel (l : StrMap) (k : GoStr) :
    lookupStr (mapDel l k) k = none := by
  induction l with
  | nil => simp [mapDel, lookupStr]
  | cons p rest ih =>
    by_cases h : p.1 == k <;>
      simp [mapDel, List.filter, h, lookupStr_cons, ih] <;>
      simpa [mapDel] using ih

lemma mapSet_self (l : StrMap) (k v : GoStr)
    (h : lookupStr l k = some v) : mapSet l k v = l := by
  induction l with
  | nil => simp [lookupStr] at h
  | cons p rest ih =>
    by_cases hpk : p.1 == k
    · have hk : p.1 = k := by simpa using hpk
      have hv : p.2 = v := by
        rw [lookupStr_cons, if_pos hpk] at h
        simpa using h
      simp [mapSet, hpk, ← hk, ← hv]
    · rw [lookupStr_cons, if_neg (by simpa using hpk)] at h
      simp [mapSet, hpk, ih h]

/- ### C3: case sensitivity of the hardware-identifier match -/

def srvName : GoStr := "server-1".data
def nodeName : GoStr := "node-1".data
def clName : GoStr := "test-cluster".data
def lcUUID : GoStr := "abc-123".data
def ucUUID : GoStr := "ABC-123".data

def c3server : Server :=
  { name := srvName
    uuid := lcUUID
    labels := []
    powerState := PowerOn
    nicIPs := [] }

def c3claim : ServerClaim :=
  { nspace := wNs
    name := wName
    labels := []
    serverRef := some srvName
    power := PowerOn }

/-- A node reporting the same hardware identifier in upper case. -/
def c3node : Node :=
  { name := nodeName
    providerID := []
    labels := []
    annotations := []
    systemUUID := ucUUID }

/-- A node reporting the hardware identifier in lower case. -/
def c3nodeLower : Node :=
  { name := nodeName
    providerID := []
    labels := []
    annotations := []
    systemUUID := lcUUID }

def c3provider : Provider :=
  { metalNamespace := wNs
    cloudConfig :=
      { clusterName := clName
        networking := { configureNodeAddresses := false, ipamKind := none } } }

def c3store : MetalStore :=
  { claims := [c3claim]
    servers := [c3server]
    ipClaims := []
    ipAddrs := [] }

/-- C3 counterexample: the node reports `ABC-123`, the referenced server
records `abc-123` — the identifiers differ only in letter case — yet
discovery finds no claim, because the code lower-cases only the server's
identifier and compares the node's verbatim. -/
theorem uuid_match_counterexample :
    c3node.systemUUID ≠ c3server.uuid ∧
    goToLower c3node.systemUUID = goToLower c3server.uuid ∧
    getServerClaimForNode c3provider c3store c3node = .ok none := by
  refine ⟨by decide, by decide, by decide⟩

/-- C3 (amended): during first-contact discovery the claim's referenced
server matches iff the node's reported identifier equals the lower-case
folding of the server's identifier — the server side is case-folded, the
node side compared verbatim, so identifiers differing only in case match
precisely when the node reports the lower-case form. -/
theorem uuid_match_amended (p : Provider) (st : MetalStore) (n : Node)
    (c : ServerClaim) (s : Server) (ref : GoStr)
    (hpid : n.providerID = [])
    (hns : st.claimsInNamespace p.metalNamespace = [c])
    (href : c.serverRef = some ref)
    (hsrv : st.getServer ref = some s) :
    getServerClaimForNode p st n = .ok (some c) ↔
      n.systemUUID = goToLower s.uuid := by
  rw [getServerClaimForNode, if_neg (by simp [hpid]), hns]
  simp only [scanClaimsForUUID, href, hsrv]
  by_cases h : n.systemUUID = goToLower s.uuid
  · simp [h]
  · simp [h, scanClaimsForUUID]

/-- C3 (amended) witness: a lower-case node identifier against the same
store does match. -/
theorem uuid_match_amended_witness :
    getServerClaimForNode c3provider c3store c3nodeLower = .ok (some c3claim) :=
  (uuid_match_amended c3provider c3store c3nodeLower c3claim c3server srvName
    rfl (by decide) rfl (by decide)).mpr (by decide)

/- ### C10: nil-node short circuits -/

/-- C10: for a nil node each of the three instance operations returns its
zero result — false, false, nil metadata — together with a nil error, in
particular not the NotFound sentinel; and metadata issues no patch. -/
theorem nil_node_zero_results (p : Provider) (st : MetalStore) :
    InstanceExists p st none = .ok false ∧
    InstanceShutdown p st none = .ok false ∧
    (InstanceMetadata p st none).result = .ok none ∧
    (InstanceMetadata p st none).store = st ∧
    (InstanceMetadata p st none).events = [] :=
  ⟨rfl, rfl, rfl, rfl, rfl⟩

/- ### C4: `exists` returns NotFound iff no claim resolves -/

/-- The discovery scan never produces the NotFound sentinel: its only
error is the wrapped server-fetch failure. -/
lemma scan_not_notFound (st : MetalStore) (u : GoStr) (l : List ServerClaim) :
    scanClaimsForUUID st u l ≠ .error .instanceNotFound := by
  induction l with
  | nil => simp [scanClaimsForUUID]
  | cons c rest ih =>
    rcases href : c.serverRef with _ | ref
    · simpa [scanClaimsForUUID, href] using ih
    · rcases hsrv : st.getServer ref with _ | s
      · simp [scanClaimsForUUID, href, hsrv, errGetServerMsg]
      · by_cases hu : u = goToLower s.uuid
        · simp [scanClaimsForUUID, href, hsrv, hu]
        · simpa [scanClaimsForUUID, href, hsrv, hu] using ih

/-- The discovery scan completes with no claim exactly when every listed
claim either has no server reference or references a present server whose
folded identifier does not match. -/
lemma scan_ok_none_iff (st : MetalStore) (u : GoStr) (l : List ServerClaim) :
    scanClaimsForUUID st u l = .ok none ↔
      ∀ c ∈ l, c.serverRef = none ∨
        ∃ ref, c.serverRef = some ref ∧
          ∃ s, st.getServer ref = some s ∧ u ≠ goToLower s.uuid := by
  induction l with
  | nil => simp [scanClaimsForUUID]
  | cons c rest ih =>
    rcases href : c.serverRef with _ | ref
    · simp only [scanClaimsForUUID, href]
      rw [ih]
      simp only [List.mem_cons]
      constructor
      · rintro h c' (rfl | hc')
        · exact Or.inl href
        · exact h c' hc'
      · intro h c' hc'
        exact h c' (Or.inr hc')
    · rcases hsrv : st.getServer ref with _ | s
      · simp only [scanClaimsForUUID, href, hsrv]
        constructor
        · intro h
          simp at h
        · intro h
          exfalso
          rcases h c (List.mem_cons_self c rest) with hnone | ⟨ref', href', s, hs', -⟩
          · simp [href] at hnone
          · rw [href] at href'
            injection href' with he
            subst he
            simp [hsrv] at hs'
      · by_cases hu : u = goToLower s.uuid
        · simp only [scanClaimsForUUID, href, hsrv, if_pos hu]
          constructor
          · intro h
            simp at h
          · intro h
            exfalso
            rcases h c (List.mem_cons_self c rest) with hnone | ⟨ref', href', s', hs', hne⟩
            · simp [href] at hnone
            · rw [href] at href'
              injection href' with he
              subst he
              rw [hsrv] at hs'
              injection hs' with he2
              subst he2
              exact hne hu
        · simp only [scanClaimsForUUID, href, hsrv, if_neg hu]
          rw [ih]
          simp only [List.mem_cons]
          constructor
          · rintro h c' (rfl | hc')
            · exact Or.inr ⟨ref, href, s, hsrv, hu⟩
            · exact h c' hc'
          · intro h c' hc'
            exact h c' (Or.inr hc')

/-- The provider-identifier lookup yields the NotFound sentinel exactly
when the identifier decodes and the store has no claim under the decoded
key. -/
lemma fromPid_notFound_iff (st : MetalStore) (pid : GoStr) :
    getServerClaimFromProviderID st pid = .error .instanceNotFound ↔
      ∃ k, getObjectKeyFromProviderID pid = .ok k ∧ st.getClaim k = none := by
  rcases hk : getObjectKeyFromProviderID pid with e | k
  · simp [getServerClaimFromProviderID, hk, errObjectKeyMsg]
  · rcases hc : st.getClaim k with _ | c
    · simp [getServerClaimFromProviderID, hk, hc]
    · simp [getServerClaimFromProviderID, hk, hc]

/-- The claim's notion of "no claim resolves for the node": a present
provider identifier decodes to a key with no claim behind it, or — on the
discovery path — no listed claim's referenced server matches the node's
reported identifier. -/
def noClaimResolves (p : Provider) (st : MetalStore) (n : Node) : Prop :=
  (n.providerID ≠ [] ∧
    ∃ k, getObjectKeyFromProviderID n.providerID = .ok k ∧ st.getClaim k = none)
  ∨ (n.providerID = [] ∧
    ∀ c ∈ st.claimsInNamespace p.metalNamespace, c.serverRef = none ∨
      ∃ ref, c.serverRef = some ref ∧
        ∃ s, st.getServer ref = some s ∧ n.systemUUID ≠ goToLower s.uuid)

/-- On the discovery path the resolver is exactly the scan. -/
lemma getServerClaimForNode_scan (p : Provider) (st : MetalStore) (n : Node)
    (hpid : n.providerID = []) :
    getServerClaimForNode p st n =
      scanClaimsForUUID st n.systemUUID (st.claimsInNamespace p.metalNamespace) := by
  rw [getServerClaimForNode, if_neg]
  simp [hpid]

/-- On the provider-identifier path the resolver is the keyed lookup. -/
lemma getServerClaimForNode_pid_error (p : Provider) (st : MetalStore) (n : Node)
    (e : CloudErr) (hpid : n.providerID ≠ [])
    (h : getServerClaimFromProviderID st n.providerID = .error e) :
    getServerClaimForNode p st n = .error e := by
  rw [getServerClaimForNode, if_pos hpid, h]

lemma getServerClaimForNode_pid_ok (p : Provider) (st : MetalStore) (n : Node)
    (c : ServerClaim) (hpid : n.providerID ≠ [])
    (h : getServerClaimFromProviderID st n.providerID = .ok c) :
    getServerClaimForNode p st n = .ok (some c) := by
  rw [getServerClaimForNode, if_pos hpid, h]

lemma instanceExists_of_error (p : Provider) (st : MetalStore) (n : Node)
    (e : CloudErr) (h : getServerClaimForNode p st n = .error e) :
    InstanceExists p st (some n) = .error e := by
  simp only [InstanceExists, h]

lemma instanceExists_of_none (p : Provider) (st : MetalStore) (n : Node)
    (h : getServerClaimForNode p st n = .ok none) :
    InstanceExists p st (some n) = .error .instanceNotFound := by
  simp only [InstanceExists, h]

lemma instanceExists_of_some (p : Provider) (st : MetalStore) (n : Node)
    (c : ServerClaim) (h : getServerClaimForNode p st n = .ok (some c)) :
    InstanceExists p st (some n) = .ok true := by
  simp only [InstanceExists, h]

/-- C4: for every non-nil node, `InstanceExists` returns the NotFound
sentinel iff no claim resolves for the node, and returns true with no
error whenever a claim resolves. -/
theorem instance_exists_notfound (p : Provider) (st : MetalStore) (n : Node) :
    (InstanceExists p st (some n) = .error .instanceNotFound ↔
      noClaimResolves p st n)
    ∧ (∀ c, getServerClaimForNode p st n = .ok (some c) →
        InstanceExists p st (some n) = .ok true) := by
  constructor
  · by_cases hpid : n.providerID = []
    · have hforms := getServerClaimForNode_scan p st n hpid
      rcases hscan : scanClaimsForUUID st n.systemUUID (st.claimsInNamespace p.metalNamespace)
          with e | _ | c
      · rw [instanceExists_of_error p st n e (hforms.trans hscan)]
        have hnn := scan_not_notFound st n.systemUUID (st.claimsInNamespace p.metalNamespace)
        rw [hscan] at hnn
        have hne2 : e ≠ CloudErr.instanceNotFound := fun h => hnn (by rw [h])
        refine iff_of_false (fun h => hne2 (by injection h)) ?_
        rintro (⟨hne, -⟩ | ⟨-, hall⟩)
        · exact hne hpid
        · have h2 := (scan_ok_none_iff st n.systemUUID _).mpr hall
          rw [hscan] at h2
          exact Except.noConfusion h2
      · rw [instanceExists_of_none p st n (hforms.trans hscan)]
        exact iff_of_true rfl
          (Or.inr ⟨hpid, (scan_ok_none_iff st n.systemUUID _).mp hscan⟩)
      · rw [instanceExists_of_some p st n c (hforms.trans hscan)]
        refine iff_of_false (by simp) ?_
        rintro (⟨hne, -⟩ | ⟨-, hall⟩)
        · exact hne hpid
        · have h2 := (scan_ok_none_iff st n.systemUUID _).mpr hall
          rw [hscan] at h2
          simp at h2
    · rcases hres : getServerClaimFromProviderID st n.providerID with e | c
      · rw [instanceExists_of_error p st n e
          (getServerClaimForNode_pid_error p st n e hpid hres)]
        by_cases he : e = CloudErr.instanceNotFound
        · subst he
          exact iff_of_true rfl
            (Or.inl ⟨hpid, (fromPid_notFound_iff st n.providerID).mp hres⟩)
        · refine iff_of_false (fun h => he (by injection h)) ?_
          rintro (⟨-, hk⟩ | ⟨hnil, -⟩)
          · have h2 := (fromPid_notFound_iff st n.providerID).mpr hk
            rw [hres] at h2
            injection h2 with h3
            exact he h3
          · exact hpid hnil
      · rw [instanceExists_of_some p st n c
          (getServerClaimForNode_pid_ok p st n c hpid hres)]
        refine iff_of_false (by simp) ?_
        rintro (⟨-, hk⟩ | ⟨hnil, -⟩)
        · have h2 := (fromPid_notFound_iff st n.providerID).mpr hk
          rw [hres] at h2
          exact Except.noConfusion h2
        · exact hpid hnil
  · intro c hc
    exact instanceExists_of_some p st n c hc

/-- C4 witness: the theorem applied at a concrete resolving node. -/
theorem instance_exists_notfound_witness :
    InstanceExists c3provider c3store (some c3nodeLower) = .ok true :=
  (instance_exists_notfound c3provider c3store c3nodeLower).2 c3claim (by decide)

/- ### C5: the cluster-identity label stamp -/

/-- A claim that already carries the cluster-identity label with the
configured value. -/
def c5claim : ServerClaim :=
  { nspace := wNs
    name := wName
    labels := [(LabelKeyClusterName, clName)]
    serverRef := some srvName
    power := PowerOn }

/-- A node whose provider identifier names `c5claim`. -/
def c5node : Node :=
  { name := nodeName
    providerID := encodeProviderID wNs wName
    labels := []
    annotations := []
    systemUUID := [] }

def c5store : MetalStore :=
  { claims := [c5claim]
    servers := [c3server]
    ipClaims := []
    ipAddrs := [] }

/-- C5 counterexample: the claim already carries the cluster-identity
label with the configured value, yet metadata assembly still issues a
patch against the claim (its content happens to be unchanged) — the code
has no skip-if-equal check. -/
theorem stamp_patch_counterexample :
    lookupStr c5claim.labels LabelKeyClusterName
      = some c3provider.cloudConfig.clusterName ∧
    (InstanceMetadata c3provider c5store (some c5node)).events
      = [PatchEvent.claimClusterLabelPatch c5claim c5claim] := by
  exact ⟨by decide, by decide⟩

/-- C5 (amended): metadata assembly issues the cluster-identity patch on
every successful call — the stamp is never skipped — but when the claim
already carries the label with an equal value the patch leaves the claim
unchanged, so repeated calls are content-idempotent though each performs
a write. -/
theorem stamp_patch_amended (p : Provider) (st : MetalStore) (n : Node)
    (claim : ServerClaim)
    (hres : getServerClaimForNode p st n = .ok (some claim)) :
    (∃ evs, (InstanceMetadata p st (some n)).events
        = PatchEvent.claimClusterLabelPatch claim
            { claim with labels := (mapSet claim.labels LabelKeyClusterName
                p.cloudConfig.clusterName) } :: evs)
    ∧ (lookupStr claim.labels LabelKeyClusterName = some p.cloudConfig.clusterName →
        { claim with labels := (mapSet claim.labels LabelKeyClusterName
            p.cloudConfig.clusterName) } = claim) := by
  constructor
  · refine ⟨(setServerClaimPower n { claim with
      labels := mapSet claim.labels LabelKeyClusterName p.cloudConfig.clusterName }).2, ?_⟩
    simp only [InstanceMetadata, hres]
    split
    · rfl
    · split <;> rfl
  · intro h
    have h2 := mapSet_self claim.labels LabelKeyClusterName p.cloudConfig.clusterName h
    cases claim
    simp only at h2 ⊢
    rw [h2]

/-- C5 (amended) witness: the amended theorem applied at the concrete
already-stamped claim. -/
theorem stamp_patch_amended_witness :
    (∃ evs, (InstanceMetadata c3provider c5store (some c5node)).events
        = PatchEvent.claimClusterLabelPatch c5claim
            { c5claim with labels := (mapSet c5claim.labels LabelKeyClusterName
                c3provider.cloudConfig.clusterName) } :: evs)
    ∧ (lookupStr c5claim.labels LabelKeyClusterName
          = some c3provider.cloudConfig.clusterName →
        { c5claim with labels := (mapSet c5claim.labels LabelKeyClusterName
            c3provider.cloudConfig.clusterName) } = c5claim) :=
  stamp_patch_amended c3provider c5store c5node c5claim (by decide)

/- ### C6: desired-power-state convergence -/

/-- C6: when the node carries the power-off annotation and the claim's
desired power is not Off, exactly one patch sets it to Off; when the
annotation is absent and the desired power is Off, exactly one patch sets
it to On; when already converged no patch is issued; and a second call on
the converged claim issues no patch. -/
theorem power_convergence (n : Node) (c : ServerClaim) :
    (mapHas n.annotations AnnotationPowerOff = true → c.power ≠ PowerOff →
      setServerClaimPower n c =
        ({ c with power := PowerOff },
         [PatchEvent.claimPowerPatch c { c with power := PowerOff }]))
    ∧ (mapHas n.annotations AnnotationPowerOff = false → c.power = PowerOff →
      setServerClaimPower n c =
        ({ c with power := PowerOn },
         [PatchEvent.claimPowerPatch c { c with power := PowerOn }]))
    ∧ ((mapHas n.annotations AnnotationPowerOff = true ∧ c.power = PowerOff) ∨
       (mapHas n.annotations AnnotationPowerOff = false ∧ c.power ≠ PowerOff) →
      setServerClaimPower n c = (c, []))
    ∧ (setServerClaimPower n (setServerClaimPower n c).1).2 = [] := by
  have hOnOff : PowerOn ≠ PowerOff := by decide
  refine ⟨?_, ?_, ?_, ?_⟩
  · intro h1 h2
    simp [setServerClaimPower, h1, h2]
  · intro h1 h2
    simp [setServerClaimPower, h1, h2]
  · rintro (⟨h1, h2⟩ | ⟨h1, h2⟩) <;> simp [setServerClaimPower, h1, h2]
  · rcases h1 : mapHas n.annotations AnnotationPowerOff with _ | _ <;>
      by_cases h2 : c.power = PowerOff <;>
      simp [setServerClaimPower, h1, h2, hOnOff]

/-- C6 witness: a node with the power-off annotation against a powered-on
claim gets exactly one patch to Off. -/
def c6node : Node :=
  { name := nodeName
    providerID := []
    labels := []
    annotations := [(AnnotationPowerOff, [])]
    systemUUID := [] }

theorem power_convergence_witness :
    setServerClaimPower c6node c5claim =
      ({ c5claim with power := PowerOff },
       [PatchEvent.claimPowerPatch c5claim { c5claim with power := PowerOff }]) :=
  (power_convergence c6node c5claim).1 (by decide) (by decide)

/- ### C7: the maintenance-approval gate -/

/-- The label map of the claim after one node-reconcile pass. -/
lemma nodeReconcileClaim_labels (node : Node) (claim : ServerClaim) :
    (nodeReconcileClaim node claim).1.labels =
      (if mapGet claim.labels ServerMaintenanceNeededLabelKey = TrueStr ∧
          mapGet node.labels ServerMaintenanceApprovalKey = TrueStr then
        mapSet claim.labels ServerMaintenanceApprovalKey TrueStr
      else mapDel claim.labels ServerMaintenanceApprovalKey) := by
  by_cases hcond : (mapGet claim.labels ServerMaintenanceNeededLabelKey = TrueStr ∧
      mapGet node.labels ServerMaintenanceApprovalKey = TrueStr)
  · rw [if_pos hcond]
    simp only [nodeReconcileClaim, if_pos hcond]
    split
    next heq => exact (congrArg ServerClaim.labels heq).symm
    next => rfl
  · rw [if_neg hcond]
    simp only [nodeReconcileClaim, if_neg hcond]
    split
    next heq => exact (congrArg ServerClaim.labels heq).symm
    next => rfl

/-- C7: after a node-reconcile pass the claim carries the
maintenance-approval label set `true` iff both the claim's
maintenance-needed label and the node's approval label read `true`; in
every other combination the label is absent afterwards. -/
theorem maintenance_approval (node : Node) (claim : ServerClaim) :
    (lookupStr (nodeReconcileClaim node claim).1.labels ServerMaintenanceApprovalKey
        = some TrueStr ↔
      (mapGet claim.labels ServerMaintenanceNeededLabelKey = TrueStr ∧
       mapGet node.labels ServerMaintenanceApprovalKey = TrueStr))
    ∧ (¬(mapGet claim.labels ServerMaintenanceNeededLabelKey = TrueStr ∧
         mapGet node.labels ServerMaintenanceApprovalKey = TrueStr) →
        lookupStr (nodeReconcileClaim node claim).1.labels ServerMaintenanceApprovalKey
          = none) := by
  have hl := nodeReconcileClaim_labels node claim
  by_cases hcond : (mapGet claim.labels ServerMaintenanceNeededLabelKey = TrueStr ∧
      mapGet node.labels ServerMaintenanceApprovalKey = TrueStr)
  · rw [hl, if_pos hcond]
    exact ⟨iff_of_true (lookup_mapSet claim.labels ServerMaintenanceApprovalKey TrueStr)
      hcond, fun h => absurd hcond h⟩
  · rw [hl, if_neg hcond]
    refine ⟨iff_of_false ?_ hcond, fun _ => lookup_mapDel claim.labels ServerMaintenanceApprovalKey⟩
    rw [lookup_mapDel]
    simp

/-- C7 witness inputs: the node grants approval, the claim needs
maintenance. -/
def c7node : Node :=
  { name := nodeName
    providerID := []
    labels := [(ServerMaintenanceApprovalKey, TrueStr)]
    annotations := []
    systemUUID := [] }

def c7claim : ServerClaim :=
  { nspace := wNs
    name := wName
    labels := [(ServerMaintenanceNeededLabelKey, TrueStr)]
    serverRef := none
    power := PowerOn }

theorem maintenance_approval_witness :
    lookupStr (nodeReconcileClaim c7node c7claim).1.labels ServerMaintenanceApprovalKey
      = some TrueStr :=
  (maintenance_approval c7node c7claim).1.mpr (by decide)

/- ### C8: the claim reconciler's reverse lookup -/

/-- C8: zero nodes carrying the claim's provider identifier is a no-op
pass with no error; more than one is a hard error with no node patch. -/
theorem claim_reconcile_matches (claim : ServerClaim) (nodes : List Node) :
    ((nodes.filter (fun n =>
        n.providerID == encodeProviderID claim.nspace claim.name)) = [] →
      serverClaimReconcile claim nodes = ⟨.ok (), []⟩)
    ∧ (1 < (nodes.filter (fun n =>
        n.providerID == encodeProviderID claim.nspace claim.name)).length →
      serverClaimReconcile claim nodes = ⟨.error (.other errMultipleNodesMsg), []⟩) := by
  constructor
  · intro h
    simp only [serverClaimReconcile, h]
  · intro h
    rcases hm : nodes.filter (fun n =>
        n.providerID == encodeProviderID claim.nspace claim.name)
        with _ | ⟨n1, _ | ⟨n2, rest⟩⟩
    · rw [hm] at h
      simp at h
    · rw [hm] at h
      simp at h
    · simp only [serverClaimReconcile, hm]

def c8nodeA : Node :=
  { name := "node-a".data
    providerID := encodeProviderID wNs wName
    labels := []
    annotations := []
    systemUUID := [] }

def c8nodeB : Node :=
  { name := "node-b".data
    providerID := encodeProviderID wNs wName
    labels := []
    annotations := []
    systemUUID := [] }

/-- C8 witness: the theorem applied to an empty store and to a store with
two nodes carrying the same provider identifier. -/
theorem claim_reconcile_matches_witness :
    serverClaimReconcile c7claim [] = ⟨.ok (), []⟩ ∧
    serverClaimReconcile c7claim [c8nodeA, c8nodeB]
      = ⟨.error (.other errMultipleNodesMsg), []⟩ :=
  ⟨(claim_reconcile_matches c7claim []).1 (by decide),
   (claim_reconcile_matches c7claim [c8nodeA, c8nodeB]).2 (by decide)⟩

/- ### C9: host-bit zeroing -/

def ipv4Example : List Nat := [10, 0, 5, 42]
def ipv6Example : List Nat := [0x20, 0x01, 0x0d, 0xb8, 0, 0, 0, 0, 0, 0, 0, 0, 0, 0, 0, 1]
def ipv6Masked : List Nat := [0x20, 0x01, 0x0d, 0xb8, 0, 0, 0, 0, 0, 0, 0, 0, 0, 0, 0, 0]

/-- C9: host-bit zeroing keeps the first prefix-length bits and clears
the rest: `10.0.5.42` masked at 24, 16, 32 and 0 bits, and
`2001:db8::1` masked at 64 bits, byte by byte. -/
theorem zero_host_bits_cases :
    zeroHostBits ipv4Example 24 = [10, 0, 5, 0] ∧
    zeroHostBits ipv4Example 16 = [10, 0, 0, 0] ∧
    zeroHostBits ipv4Example 32 = ipv4Example ∧
    zeroHostBits ipv4Example 0 = [0, 0, 0, 0] ∧
    zeroHostBits ipv6Example 64 = ipv6Masked := by decide

end CPMetal
